import Mathlib

/-!
Shallow embedding of the Android UI-automation driver (parsers, planner,
device-bridge selector resolution, list-pattern detector, deduplicating tree
builder) together with theorems settling the specification claims.

Conventions of the embedding:
* An XML element's attribute set is modelled as an association list
  `Attrs := List (String × String)`; `lxml`'s `node.get(k, d)` is `aget a k d`
  and `node.get(k)` (returning `None` when absent) is `a.lookup k`.
* A snapshot document, as consumed by the flat parsers (which all operate on
  `root.xpath("//node")`, the document-order list of `node` elements), is
  modelled as `List Attrs`.  The deduplicating tree parser recurses over the
  real element tree, modelled by the mutual inductive `XNode`/`XNodeList`.
* Python string operations are modelled over `List Char` / `String` for the
  ASCII data the driver manipulates (`str.lower`, `str.strip`, substring
  containment, `str.split("/")[-1]`, the camel-case `re.sub`).
* Machine integers are `Nat`/`Int` (Python integers are unbounded, so no
  wrap-around modelling is needed); Python's `//` on non-negative values is
  `Nat` division.
* Fallible code returns `Option`/`Except`.
-/

/-! ### Python string primitives -/

/-- `str.lower` restricted to ASCII, as used on attribute values. -/
def pyLower (s : String) : String := ⟨s.data.map Char.toLower⟩

/-- `str.upper` restricted to ASCII. -/
def pyUpper (s : String) : String := ⟨s.data.map Char.toUpper⟩

/-- Whitespace test for `str.strip`. -/
def pyIsSpace (c : Char) : Bool := c = ' ' ∨ c = '\t' ∨ c = '\n' ∨ c = '\r'

/-- `str.strip`: drop whitespace from both ends. -/
def pyStrip (s : String) : String :=
  ⟨(((s.data.dropWhile pyIsSpace).reverse).dropWhile pyIsSpace).reverse⟩

/-- List-of-chars prefix test. -/
def prefixL : List Char → List Char → Bool
  | [], _ => true
  | _ :: _, [] => false
  | a :: as, b :: bs => a == b && prefixL as bs

/-- List-of-chars infix (substring) test. -/
def infixL (n : List Char) : List Char → Bool
  | [] => prefixL n []
  | c :: t => prefixL n (c :: t) || infixL n t

/-- Python `needle in hay` substring containment. -/
def pyIn (needle hay : String) : Bool := infixL needle.data hay.data

/-- `resource_id.split("/")[-1]`: the segment after the last `/`. -/
def lastSegment (s : String) : String :=
  ⟨((s.data.reverse.takeWhile (fun c => c ≠ '/'))).reverse⟩

/-- `re.sub(r'(?<!^)(?=[A-Z])', ' ', s)`: insert a space before every
uppercase letter that is not at the start of the string. -/
def camelSplitAux : List Char → List Char
  | [] => []
  | d :: ds => (if d.isUpper then [' ', d] else [d]) ++ camelSplitAux ds

def camelSplit (s : String) : String :=
  match s.data with
  | [] => ⟨[]⟩
  | c :: rest => ⟨c :: camelSplitAux rest⟩

/-- Single-character replacement, modelling `str.replace("_", " ")` etc. for
one-character patterns. -/
def replChar (src dst : Char) (s : String) : String :=
  ⟨s.data.map (fun c => if c = src then dst else c)⟩

/-! ### Bounds geometry (`_parse_bounds`, identical in `android.py`,
`parser.py`; `list_detector.py` has a lenient variant) -/

/-- One parsed bounds rectangle `[x1,y1][x2,y2]`. -/
structure Bounds where
  x1 : Nat
  y1 : Nat
  x2 : Nat
  y2 : Nat
deriving DecidableEq

def isDigitCh (c : Char) : Bool := '0' ≤ c ∧ c ≤ '9'

/-- Greedy `\d+`: take the maximal run of digits, fail on an empty run;
returns the value and the rest of the input. -/
def munchNat (cs : List Char) : Option (Nat × List Char) :=
  let ds := cs.takeWhile isDigitCh
  if ds.isEmpty then none
  else some (ds.foldl (fun a c => a * 10 + (c.toNat - 48)) 0, cs.dropWhile isDigitCh)

/-- Expect a literal character. -/
def expectCh (c : Char) : List Char → Option (List Char)
  | [] => none
  | d :: ds => if d = c then some ds else none

/-- `re.match(r'\[(\d+),(\d+)\]\[(\d+),(\d+)\]', s)`: anchored at the start,
greedy digit groups, trailing characters permitted. -/
def parseBoundsChars (cs : List Char) : Option Bounds :=
  match expectCh '[' cs with
  | none => none
  | some r0 =>
    match munchNat r0 with
    | none => none
    | some (x1, r1) =>
      match expectCh ',' r1 with
      | none => none
      | some r2 =>
        match munchNat r2 with
        | none => none
        | some (y1, r3) =>
          match expectCh ']' r3 with
          | none => none
          | some r4 =>
            match expectCh '[' r4 with
            | none => none
            | some r5 =>
              match munchNat r5 with
              | none => none
              | some (x2, r6) =>
                match expectCh ',' r6 with
                | none => none
                | some r7 =>
                  match munchNat r7 with
                  | none => none
                  | some (y2, r8) =>
                    match expectCh ']' r8 with
                    | none => none
                    | some _ => some ⟨x1, y1, x2, y2⟩

/-- `_parse_bounds` of `android.py` / `parser.py`: raises (here `none`) when
the pattern does not match. -/
def parse_bounds (s : String) : Option Bounds := parseBoundsChars s.data

/-- `_parse_bounds` of `list_detector.py`: degrades to the zero rectangle. -/
def parse_bounds_lenient (s : String) : Bounds := (parseBoundsChars s.data).getD ⟨0, 0, 0, 0⟩

/-- Center computation of `tap_node` (`android.py` lines 145-146) and
`parse_for_llm` (`parser.py` lines 89-90): integer floor division. -/
def boundsCenter (b : Bounds) : Nat × Nat := ((b.x1 + b.x2) / 2, (b.y1 + b.y2) / 2)

/-- `_get_x_center` (`list_detector.py`). -/
def get_x_center (b : Bounds) : Nat := (b.x1 + b.x2) / 2

/-- `_get_y_center` (`list_detector.py`). -/
def get_y_center (b : Bounds) : Nat := (b.y1 + b.y2) / 2

/-! ### Attribute sets and the flat structural parser (`parser.py parse`) -/

/-- Attributes of one XML element. -/
abbrev Attrs := List (String × String)

/-- `node.get(k, d)`. -/
def aget (a : Attrs) (k d : String) : String := (a.lookup k).getD d

/-- One record of `parse`'s output. -/
structure PRecord where
  resourceId : String
  text : String
  contentDesc : String
  clickable : Bool
  bounds : String
deriving DecidableEq

/-- The per-node record built by `parse` (`parser.py` lines 25-31). -/
def pRecordOf (a : Attrs) : PRecord :=
  { resourceId := aget a "resource-id" ""
    text := aget a "text" ""
    contentDesc := aget a "content-desc" ""
    clickable := aget a "clickable" "false" == "true"
    bounds := aget a "bounds" "" }

/-- `parse` (`parser.py` lines 7-37): keep, in document order, the records of
nodes having at least one non-empty identifying field. -/
def parse : List Attrs → List PRecord
  | [] => []
  | a :: rest =>
    let r := pRecordOf a
    if r.resourceId ≠ "" ∨ r.text ≠ "" ∨ r.contentDesc ≠ "" then
      r :: parse rest
    else
      parse rest

/-- Identifying-field test, written from the spec's words for claim C5. -/
def hasIdentity (a : Attrs) : Bool :=
  aget a "resource-id" "" ≠ "" ∨ aget a "text" "" ≠ "" ∨ aget a "content-desc" "" ≠ ""

/-! ### Element classification and labelling (`parser.py`) -/

/-- `_get_element_type` (`parser.py` lines 129-160): ordered substring checks
on the lowercased class name. -/
def get_element_type (className : String) : String :=
  let c := pyLower className
  if pyIn "button" c then "button"
  else if pyIn "edittext" c ∨ pyIn "input" c then "input"
  else if pyIn "textview" c then "text"
  else if pyIn "imageview" c ∨ pyIn "image" c then "image"
  else if pyIn "checkbox" c then "checkbox"
  else if pyIn "switch" c then "switch"
  else if pyIn "radiobutton" c then "radio_button"
  else if pyIn "spinner" c then "dropdown"
  else if pyIn "seekbar" c then "slider"
  else if pyIn "recyclerview" c ∨ pyIn "listview" c then "list"
  else if pyIn "scrollview" c then "scroll_container"
  else if pyIn "webview" c then "webview"
  else if pyIn "layout" c ∨ pyIn "viewgroup" c then "container"
  else "element"

/-- `_create_label` (`parser.py` lines 163-182). -/
def create_label (text contentDesc resourceId elementType : String) : String :=
  if text ≠ "" then text
  else if contentDesc ≠ "" then contentDesc
  else if resourceId ≠ "" then
    if pyIn "/" resourceId then
      let idPart := lastSegment resourceId
      let lbl := replChar '-' ' ' (replChar '_' ' ' idPart)
      let lbl := pyLower (camelSplit lbl)
      pyStrip (lbl ++ " " ++ elementType)
    else
      resourceId ++ " " ++ elementType
  else elementType

/-! ### Descriptive parser (`parser.py parse_for_llm`) -/

/-- Identifier triple carried by a descriptive record. -/
structure Identifiers where
  resource_id : String
  text : String
  content_desc : String
deriving DecidableEq

/-- Raw boolean flags carried by a descriptive record. -/
structure NodeProps where
  focusable : Bool
  scrollable : Bool
  long_clickable : Bool
  password : Bool
  selected : Bool
deriving DecidableEq

/-- One record of `parse_for_llm`'s output. -/
structure LlmNode where
  index : Nat
  type : String
  label : String
  clickable : Bool
  enabled : Bool
  location : Option (Nat × Nat)
  size : Option (Int × Int)
  identifiers : Identifiers
  properties : NodeProps
  ui_class : String
deriving DecidableEq

/-- The record `parse_for_llm` builds for one retained node
(`parser.py` lines 61-123). -/
def llmNodeOf (a : Attrs) (index : Nat) : LlmNode :=
  let resourceId := aget a "resource-id" ""
  let text := aget a "text" ""
  let contentDesc := aget a "content-desc" ""
  let bounds := aget a "bounds" ""
  let uiClass := aget a "class" ""
  let elementType := get_element_type uiClass
  let locSize : Option (Nat × Nat) × Option (Int × Int) :=
    if bounds ≠ "" then
      match parse_bounds bounds with
      | some b => (some (boundsCenter b), some ((b.x2 : Int) - b.x1, (b.y2 : Int) - b.y1))
      | none => (none, none)
    else (none, none)
  { index := index
    type := elementType
    label := create_label text contentDesc resourceId elementType
    clickable := aget a "clickable" "false" == "true"
    enabled := aget a "enabled" "false" == "true"
    location := locSize.1
    size := locSize.2
    identifiers := ⟨resourceId, text, contentDesc⟩
    properties :=
      { focusable := aget a "focusable" "false" == "true"
        scrollable := aget a "scrollable" "false" == "true"
        long_clickable := aget a "long-clickable" "false" == "true"
        password := aget a "password" "false" == "true"
        selected := aget a "selected" "false" == "true" }
    ui_class := uiClass }

/-- `parse_for_llm` (`parser.py` lines 40-126): skip unidentified nodes,
number the retained ones sequentially. -/
def parseForLlmAux : List Attrs → Nat → List LlmNode
  | [], _ => []
  | a :: rest, index =>
    if aget a "resource-id" "" ≠ "" ∨ aget a "text" "" ≠ "" ∨ aget a "content-desc" "" ≠ "" then
      llmNodeOf a index :: parseForLlmAux rest (index + 1)
    else
      parseForLlmAux rest index

def parse_for_llm (doc : List Attrs) : List LlmNode := parseForLlmAux doc 0

/-! ### Decision engine (`planner.py`) -/

/-- Selector triple returned by the planner (`resource-id`, `text`,
`content-desc`). -/
structure Selector where
  resourceId : String
  text : String
  contentDesc : String
deriving DecidableEq

/-- One entry of the node list fed to `choose_node` /
`choose_node_stub` (the output records of `parse`). -/
def stubSelectorOf (n : PRecord) : Selector :=
  ⟨n.resourceId, n.text, n.contentDesc⟩

/-- `choose_node_stub` (`planner.py` lines 33-62): first loop — first
clickable node with truthy text. -/
def stubFirstLoop : List PRecord → Option Selector
  | [] => none
  | n :: rest =>
    if ¬ n.clickable then stubFirstLoop rest
    else if n.text ≠ "" then some (stubSelectorOf n)
    else stubFirstLoop rest

/-- `choose_node_stub`: second loop — first clickable node with truthy
resource-id or content-desc. -/
def stubSecondLoop : List PRecord → Option Selector
  | [] => none
  | n :: rest =>
    if ¬ n.clickable then stubSecondLoop rest
    else if n.resourceId ≠ "" ∨ n.contentDesc ≠ "" then some (stubSelectorOf n)
    else stubSecondLoop rest

def choose_node_stub (nodes : List PRecord) : Option Selector :=
  match stubFirstLoop nodes with
  | some s => some s
  | none => stubSecondLoop nodes

/-- The stub rule as worded by the spec, for the claim C2 comparison:
the selector of the first clickable node with non-empty text, else of the
first clickable node with non-empty resource-id or content-desc, else none. -/
def specStubRule (nodes : List PRecord) : Option Selector :=
  match nodes.find? (fun n => n.clickable && n.text ≠ "") with
  | some n => some (stubSelectorOf n)
  | none =>
    (nodes.find? (fun n => n.clickable && (n.resourceId ≠ "" ∨ n.contentDesc ≠ ""))).map
      stubSelectorOf

/-- Errors that the LLM path can raise.  The generative-model client call is
abstracted: `missingConfig`, `invalidResponse` and `remoteError` arise inside
the client (`llm_client.py` / `llm_client_simple.py`), `missingSnapshot` is
the `FileNotFoundError` of `planner.py`, `invalidIndex` the `ValueError` of
`choose_node_with_llm`. -/
inductive PlanErr where
  | missingSnapshot
  | missingConfig
  | invalidResponse
  | remoteError
  | invalidIndex
deriving DecidableEq

/-- The model's decision `{action, element_index, reason, confidence}`;
`element_index` is an arbitrary integer as returned by the model. -/
structure Decision where
  action : String
  elementIndex : Int
  reason : String
  confidence : Int
deriving DecidableEq

/-- Environment of one planner invocation: the two credential environment
variables, the parsed `//node` list of `window_dump.xml` (`none` when the
file does not exist), and the outcome of the generative-model client call
(client construction and HTTP call abstracted as one `Except`). -/
structure Env where
  googleAiApiKey : Option String
  vertexAiProjectId : Option String
  snapshot : Option (List Attrs)
  llmOutcome : Except PlanErr Decision

/-- `choose_node_with_llm` (`planner.py` lines 65-121): re-reads and
re-parses the on-disk snapshot (ignoring the caller's node list), asks the
client, resolves the returned index against the freshly parsed list, and maps
the chosen element's identifiers to a selector. -/
def choose_node_with_llm (env : Env) : Except PlanErr Selector := do
  match env.snapshot with
  | none => throw .missingSnapshot
  | some doc =>
    let llmNodes := parse_for_llm doc
    match env.llmOutcome with
    | .error e => throw e
    | .ok result =>
      if h : 0 ≤ result.elementIndex ∧ result.elementIndex < llmNodes.length then
        let selected := llmNodes.get ⟨result.elementIndex.toNat, by omega⟩
        pure ⟨selected.identifiers.resource_id, selected.identifiers.text,
              selected.identifiers.content_desc⟩
      else
        throw .invalidIndex

/-- Truthiness of the optional `user_goal` argument (`None` and `""` are
falsy). -/
def goalTruthy : Option String → Bool
  | none => false
  | some g => g ≠ ""

/-- `choose_node` (`planner.py` lines 7-30): attempt the LLM path when a
credential is present and a goal supplied; any exception there is caught and
the deterministic stub runs instead. -/
def choose_node (env : Env) (nodes : List PRecord) (userGoal : Option String) :
    Option Selector :=
  let useLlm := env.googleAiApiKey.isSome || env.vertexAiProjectId.isSome
  if useLlm && goalTruthy userGoal then
    match choose_node_with_llm env with
    | .ok s => some s
    | .error _ => choose_node_stub nodes
  else
    choose_node_stub nodes

/-- Result of `analyze_screen_for_goal`: the model's decision, with the
resolved element attached when the index was in range. -/
structure AnalyzeResult where
  decision : Decision
  element : Option LlmNode
deriving DecidableEq

/-- `analyze_screen_for_goal` (`planner.py` lines 124-171): same sequence as
`choose_node_with_llm`, but an out-of-range index leaves the result without
an `element` field instead of raising. -/
def analyze_screen_for_goal (env : Env) : Except PlanErr AnalyzeResult := do
  match env.snapshot with
  | none => throw .missingSnapshot
  | some doc =>
    let nodes := parse_for_llm doc
    match env.llmOutcome with
    | .error e => throw e
    | .ok result =>
      if h : 0 ≤ result.elementIndex ∧ result.elementIndex < nodes.length then
        pure ⟨result, some (nodes.get ⟨result.elementIndex.toNat, by omega⟩)⟩
      else
        pure ⟨result, none⟩

/-! ### Device bridge selector resolution (`android.py tap_node`) -/

/-- Error kinds of the selector-resolution part of `tap_node`:
`notFound` (no node matches), `missingBounds` (matched node has a falsy
`bounds` attribute), `invalidInput` (the `ValueError` of `_parse_bounds`). -/
inductive TapErr where
  | notFound
  | missingBounds
  | invalidInput
deriving DecidableEq

/-- The per-node match test of `tap_node` (`android.py` lines 114-131): every
truthy selector field must equal the node's attribute exactly (`node.get`
yields `None` for an absent attribute, which never equals a non-empty
selector field). -/
def tapMatches (sel : Selector) (a : Attrs) : Bool :=
  (sel.resourceId == "" || a.lookup "resource-id" == some sel.resourceId) &&
  (sel.text == "" || a.lookup "text" == some sel.text) &&
  (sel.contentDesc == "" || a.lookup "content-desc" == some sel.contentDesc)

/-- The resolution-and-center part of `tap_node` (`android.py` lines
108-150), applied to the freshly captured document's `node` list: find the
first match in document order, require a truthy `bounds` attribute, parse it
and compute the tap coordinates. -/
def tapResolve (sel : Selector) (doc : List Attrs) : Except TapErr (Nat × Nat) :=
  match doc.find? (tapMatches sel) with
  | none => throw .notFound
  | some n =>
    match n.lookup "bounds" with
    | none => throw .missingBounds
    | some b =>
      if b = "" then throw .missingBounds
      else
        match parse_bounds b with
        | none => throw .invalidInput
        | some bd => pure (boundsCenter bd)

/-! ### Minimal actionable parser (`parser.py parse_minimal_for_llm`) -/

/-- One compact element: `i` index, `t` one-letter type code, `l` label,
`c` clickable flag (emitted only when true), `h` optional interaction hint,
`items` sample labels of a synthetic list element. -/
structure MinElement where
  i : Nat
  t : String
  l : String
  c : Bool
  h : Option String
  items : Option (List String)
deriving DecidableEq

/-- State threaded through `parse_minimal_for_llm`'s collection loop. -/
structure MinState where
  elements : List MinElement
  seen : List String
  index : Nat

/-- First character of the element type, uppercased
(`element_type[0].upper()`; every type name is non-empty). -/
def typeCode (elementType : String) : String :=
  match elementType.data with
  | [] => ""
  | c :: _ => ⟨[c.toUpper]⟩

/-- The duplicate-detection key `f"{text}|{content_desc}|{resource_id}|{clickable}"`
(Python interpolates the boolean as `True`/`False`). -/
def minKey (text contentDesc resourceId : String) (clickable : Bool) : String :=
  text ++ "|" ++ contentDesc ++ "|" ++ resourceId ++ "|" ++
    (if clickable then "True" else "False")

/-- Size test of `parse_minimal_for_llm` (`parser.py` lines 242-250): a node
with a truthy, well-formed `bounds` attribute measuring under 20px on either
axis is skipped (width/height computed as Python integers, hence `Int`). -/
def minTiny (a : Attrs) : Bool :=
  let bounds := aget a "bounds" ""
  if bounds ≠ "" then
    match parse_bounds bounds with
    | some b => ((b.x2 : Int) - b.x1 < 20) ∨ ((b.y2 : Int) - b.y1 < 20)
    | none => false
  else false

/-- One iteration of `parse_minimal_for_llm`'s collection loop
(`parser.py` lines 213-270). -/
def minStep (st : MinState) (a : Attrs) : MinState :=
  if aget a "enabled" "false" ≠ "true" then st
  else
    let resourceId := aget a "resource-id" ""
    let text := pyStrip (aget a "text" "")
    let contentDesc := pyStrip (aget a "content-desc" "")
    let clickable := aget a "clickable" "false" == "true"
    let uiClass := aget a "class" ""
    let elementType := get_element_type uiClass
    if (elementType = "container" ∨ elementType = "scroll_container") ∧ ¬ clickable then st
    else if text = "" ∧ contentDesc = "" ∧ resourceId = "" then st
    else
      let key := minKey text contentDesc resourceId clickable
      if st.seen.contains key then st
      else
        let seen := key :: st.seen
        if minTiny a then { st with seen := seen }
        else
          let elem : MinElement :=
            { i := st.index
              t := typeCode elementType
              l := create_label text contentDesc resourceId elementType
              c := clickable
              h := if elementType = "input" then some "type"
                   else if elementType = "button" ∨ clickable then some "click"
                   else none
              items := none }
          { elements := st.elements ++ [elem], seen := seen, index := st.index + 1 }

/-- The collection loop of `parse_minimal_for_llm` over the document's
`//node` list. -/
def minCollect (doc : List Attrs) : MinState :=
  doc.foldl minStep ⟨[], [], 0⟩

/-- Inner `while` of `_group_similar_elements`: the maximal run of following
elements sharing the first element's type code. -/
def minRunOf (t : String) (rest : List MinElement) : List MinElement :=
  rest.takeWhile (fun e => e.t == t)

/-- `_group_similar_elements`'s main loop (`parser.py` lines 290-328): 3+
consecutive elements sharing type code and clickable flag collapse into one
synthetic list element carrying up to 5 sample labels. -/
def groupSimilarGo : List MinElement → List MinElement
  | [] => []
  | e :: rest =>
    let pat := match rest with
      | a :: b :: _ => a.t == e.t && b.t == e.t && a.c == e.c && b.c == e.c
      | _ => false
    if pat then
      let run := minRunOf e.t rest
      let items := e.l :: run.map (fun x => x.l)
      { i := e.i, t := "L",
        l := "List of " ++ toString items.length ++ " " ++ e.t ++ " items",
        c := false, h := some "select", items := some (items.take 5) } ::
        groupSimilarGo (rest.drop run.length)
    else
      e :: groupSimilarGo rest
termination_by l => l.length
decreasing_by
  · simp only [List.length_drop, List.length_cons]
    omega
  · simp

/-- `_group_similar_elements` (`parser.py` lines 282-328): skipped entirely
below 5 total elements. -/
def group_similar_elements (elements : List MinElement) : List MinElement :=
  if elements.length < 5 then elements else groupSimilarGo elements

/-- The fixed keyword vocabularies of `_generate_element_map`
(`parser.py` lines 336-341), in insertion order. -/
def minPatterns : List (String × List String) :=
  [("auth", ["login", "sign in", "password", "username", "email"]),
   ("nav", ["back", "home", "menu", "settings", "profile"]),
   ("action", ["submit", "save", "cancel", "ok", "done", "next"]),
   ("search", ["search", "find", "filter", "query"])]

/-- `_generate_element_map` (`parser.py` lines 331-355). -/
def generate_element_map (elements : List MinElement) : List (String × List Nat) :=
  minPatterns.foldr (fun (p : String × List String) acc =>
    let hits :=
      (elements.filter (fun e => p.2.any (fun kw => pyIn kw (pyLower e.l)))).map
        (fun e => e.i)
    if hits ≠ [] then (p.1, hits) :: acc else acc) []

/-- Output of `parse_minimal_for_llm`: `e` grouped elements, `n` count,
`m` keyword map. -/
structure MinOut where
  e : List MinElement
  n : Nat
  m : List (String × List Nat)
deriving DecidableEq

/-- `parse_minimal_for_llm` (`parser.py` lines 193-279). -/
def parse_minimal_for_llm (doc : List Attrs) : MinOut :=
  let grouped := group_similar_elements (minCollect doc).elements
  ⟨grouped, grouped.length, generate_element_map grouped⟩

/-! ### List pattern detector (`list_detector.py`) -/

/-- One element as consumed by the list detector (an element dict of the
clean tree parser): `label` is always present on these elements, `bounds`
and `action` are looked up with `.get`. -/
structure LElem where
  type : String
  label : String
  action : Option String
  bounds : Option String
  inList : Bool
deriving DecidableEq

/-- One produced group: plain groups carry no title, list items do. -/
structure LItem where
  title : Option String
  type : String
  elements : List LElem
deriving DecidableEq

/-- Badge test: any of `NEW!`, `HOT!`, `IPL`, `5%` inside the uppercased
label (`list_detector.py` line 88). -/
def badgeLabel (label : String) : Bool :=
  ["NEW!", "HOT!", "IPL", "5%"].any (fun b => pyIn b (pyUpper label))

/-- Game-name keyword test (`list_detector.py` line 133). -/
def gameKeyword (label : String) : Bool :=
  ["poker", "rummy", "patti", "skill", "cricket", "opinio", "crash", "call break"].any
    (fun g => pyIn g (pyLower label))

/-- Per-element type signature (`list_detector.py` lines 84-95). -/
def typeSig (e : LElem) : String :=
  if e.action == some "tap" then "tap_area"
  else if e.type == "text" && badgeLabel e.label then "badge"
  else if e.type == "text" then "text"
  else e.type

def typeSignature (elements : List LElem) : List String := elements.map typeSig

/-- The chunk test of `_find_repeating_patterns` (`list_detector.py` lines
103-107): Python's `for i in range(L, n, L)` compares `sig[i:i+L]` (the
trailing slice possibly shorter) against the pattern.  With `rest` standing
for `sig[L:]`, the visited offsets are `j*L` for `j` below
`⌈rest.length / L⌉`. -/
def chunksRepeat (pat : List String) (L : Nat) (rest : List String) : Bool :=
  (List.range ((rest.length + L - 1) / L)).all (fun j =>
    ((rest.drop (j * L)).take L) == pat)

/-- `_find_repeating_patterns` (`list_detector.py` lines 77-112): search
pattern lengths `range(2, min(8, n // 2))` for an exact repeating cycle. -/
def find_repeating_patterns (elements : List LElem) : List (List String) :=
  let sig := typeSignature elements
  (List.range' 2 (min 8 (sig.length / 2) - 2)).filterMap (fun L =>
    let pat := sig.take L
    if chunksRepeat pat L (sig.drop L) then some pat else none)

/-- Title of one chunk (`list_detector.py` lines 129-135): the first
non-badge text element whose label contains a game keyword, else `Item`. -/
def itemTitle (item : List LElem) : String :=
  match item.find? (fun e =>
      e.type == "text" && ¬ badgeLabel e.label && gameKeyword e.label) with
  | some e => e.label
  | none => "Item"

/-- Chunking loop of `_group_by_patterns` (`list_detector.py` lines
125-142): Python's `for i in range(0, len, L)` takes the slice at each
offset `j*L` for `j` below `⌈len / L⌉` (each such slice is non-empty, so
the `if item_elements` guard always passes).  `L = 0` cannot occur (pattern
lengths start at 2; Python's `range(0, n, 0)` would raise). -/
def chunkItems (L : Nat) (elements : List LElem) : List LItem :=
  (List.range ((elements.length + L - 1) / L)).map (fun j =>
    ⟨some (itemTitle ((elements.drop (j * L)).take L)), "list_item",
     (elements.drop (j * L)).take L⟩)

/-- Python `max(patterns, key=len)`: the first pattern of maximal length
(pattern lengths here are pairwise distinct, so it is the unique longest). -/
def longestPattern (h : List String) (t : List (List String)) : List String :=
  t.foldl (fun acc p => if p.length > acc.length then p else acc) h

/-- `_group_by_patterns` (`list_detector.py` lines 115-143). -/
def group_by_proximity (elements : List LElem) (isHorizontal : Bool) : List LItem :=
  let step := fun (st : List LItem × Option LItem × Int) (e : LElem) =>
    let (items, currentItem, lastPos) := st
    let b := parse_bounds_lenient ((e.bounds).getD "[0,0][0,0]")
    let pos : Int := if isHorizontal then get_x_center b else get_y_center b
    let threshold : Int := if isHorizontal then 200 else 150
    if pos - lastPos > threshold then
      (items ++ currentItem.toList, some ⟨some e.label, "list_item", [e]⟩, pos)
    else
      match currentItem with
      | none => (items, none, pos)
      | some it =>
        let title := if e.type == "text" ∧ e.label.length > ((it.title).getD "").length
          then some e.label else it.title
        (items, some ⟨title, it.type, it.elements ++ [e]⟩, pos)
  let fin := elements.foldl step ([], none, -1000)
  fin.1 ++ fin.2.1.toList

def group_by_patterns (elements : List LElem) (patterns : List (List String))
    (isHorizontal : Bool) : List LItem :=
  match patterns with
  | [] => group_by_proximity elements isHorizontal
  | h :: t => chunkItems (longestPattern h t).length elements

/-- Stable insertion by key, modelling Python's stable `list.sort(key=...)`:
an element goes before the first list entry with a strictly larger key. -/
def insertByKey (key : LElem → Nat) (x : LElem) : List LElem → List LElem
  | [] => [x]
  | y :: ys => if key y < key x then y :: insertByKey key x ys else x :: y :: ys

def sortByKey (key : LElem → Nat) (l : List LElem) : List LElem :=
  l.foldr (insertByKey key) []

/-- Axis key used by `_identify_list_items`'s sort. -/
def axisKey (isHorizontal : Bool) (e : LElem) : Nat :=
  let b := parse_bounds_lenient ((e.bounds).getD "[0,0][0,0]")
  if isHorizontal then get_x_center b else get_y_center b

/-- `_identify_list_items` (`list_detector.py` lines 41-74): orientation from
center spreads, stable sort along the dominant axis, pattern search, chunking
or proximity fallback. -/
def identify_list_items (elements : List LElem) : List LItem :=
  let xs := elements.map (fun e => get_x_center (parse_bounds_lenient ((e.bounds).getD "[0,0][0,0]")))
  let ys := elements.map (fun e => get_y_center (parse_bounds_lenient ((e.bounds).getD "[0,0][0,0]")))
  let xVar := (xs.max?.getD 0) - (xs.min?.getD 0)
  let yVar := (ys.max?.getD 0) - (ys.min?.getD 0)
  let isHorizontal := xVar > yVar
  let sorted := sortByKey (axisKey isHorizontal) elements
  let patterns := find_repeating_patterns sorted
  if patterns ≠ [] then group_by_patterns sorted patterns isHorizontal
  else group_by_proximity sorted isHorizontal

/-- `detect_and_group_list_items` (`list_detector.py` lines 8-38). -/
def detect_and_group_list_items (elements : List LElem) : List LItem :=
  let listElements := elements.filter (fun e => e.inList)
  let nonListElements := elements.filter (fun e => ¬ e.inList)
  if listElements = [] then [⟨none, "group", elements⟩]
  else
    (if nonListElements ≠ [] then [⟨none, "non_list_group", nonListElements⟩] else []) ++
      identify_list_items listElements

/-! ### Deduplicating tree parser (`dedup_parser.py`) -/

/-- `_get_element_type` of `dedup_parser.py` (lines 165-186) — distinct from
the one in `parser.py`: clickable text counts as a button. -/
def dedupElementType (className : String) (clickable : Bool) : String :=
  let c := pyLower className
  if pyIn "edittext" c then "input"
  else if pyIn "button" c then "button"
  else if pyIn "textview" c ∧ clickable then "button"
  else if pyIn "textview" c then "text"
  else if pyIn "checkbox" c then "checkbox"
  else if pyIn "switch" c then "switch"
  else if pyIn "recyclerview" c ∨ pyIn "listview" c then "list"
  else if pyIn "layout" c ∨ pyIn "viewgroup" c then "container"
  else "element"

mutual
/-- An XML element tree (attribute set plus ordered children), as walked by
`_build_dedup_node`. -/
inductive XNode where
  | mk (attrs : Attrs) (children : XNodeList)
/-- Ordered sibling list of an `XNode`. -/
inductive XNodeList where
  | nil
  | cons (h : XNode) (t : XNodeList)
end

/-- Value stored in the `seen_texts` map (`dedup_parser.py` lines 125-130). -/
structure SeenInfo where
  id : Nat
  clickable : Bool
  type : String
  bounds : String
deriving DecidableEq

/-- Ghost record of one built `current_node`: its lowercased visible text
(possibly empty), clickable flag and element type.  Used to state the
duplicate-suppression invariant. -/
structure Emit where
  textLower : String
  clickable : Bool
  elemType : String
deriving DecidableEq

/-- Traversal state of `_build_dedup_node`: the `seen_texts` dict (newest
binding first; `lookup` sees the latest), the `element_id` counter, and the
ghost list of built nodes in build order. -/
structure DState where
  seen : List (String × SeenInfo)
  nextId : Nat
  emits : List Emit
deriving DecidableEq

/-- The state effect of building one `current_node`: record the text in
`seen_texts` when non-empty (`dedup_parser.py` lines 124-130), advance the
id counter (line 142) and append the ghost emission record. -/
def dedupEmitState (st : DState) (vt : String) (clickable : Bool)
    (elemType bounds : String) : DState :=
  let st1 : DState :=
    if vt ≠ "" then
      { st with seen := (pyLower vt, ⟨st.nextId, clickable, elemType, bounds⟩) :: st.seen }
    else st
  { st1 with
      nextId := st1.nextId + 1
      emits := st1.emits ++ [⟨pyLower vt, clickable, elemType⟩] }

/-- Output node of the deduplicating builder; a synthetic `group` node
carries no text and no action. -/
inductive DNode where
  | mk (id : Nat) (type : String) (text : Option String) (action : Option String)
      (children : List DNode)

mutual
/-- `_build_dedup_node` (`dedup_parser.py` lines 62-162). -/
def buildDedup (n : XNode) (st : DState) : Option DNode × DState :=
  match n with
  | .mk attrs children =>
    let text := pyStrip (aget attrs "text" "")
    let desc := pyStrip (aget attrs "content-desc" "")
    let clickable := aget attrs "clickable" "false" == "true"
    let enabled := aget attrs "enabled" "false" == "true"
    let className := aget attrs "class" ""
    let bounds := aget attrs "bounds" ""
    if ¬ enabled then (none, st)
    else
      let visibleText := if text ≠ "" then text else desc
      let elemType := dedupElementType className clickable
      let isContainer := elemType = "container" ∨ elemType = "layout" ∨ elemType = "list"
      if isContainer ∧ visibleText = "" ∧ ¬ clickable then
        -- splice the children of an unlabelled, unclickable container
        let (cs, st1) := buildDedupList children st
        match cs with
        | [] => (none, st1)
        | [c] => (some c, st1)
        | _ => (some (.mk st1.nextId "group" none none cs), st1)
      else
        let keep : Bool :=
          if visibleText ≠ "" then
            match st.seen.lookup (pyLower visibleText) with
            | some prev =>
              (clickable ∧ ¬ prev.clickable) ∨ (elemType = "input" ∧ prev.type ≠ "input")
            | none => true
          else clickable ∨ elemType = "input"
        if ¬ keep then (none, st)
        else
          let nodeId := st.nextId
          let st2 := dedupEmitState st visibleText clickable elemType bounds
          let currentText := if visibleText ≠ "" then visibleText else "[" ++ elemType ++ "]"
          let action :=
            if clickable ∨ elemType = "input" ∨ elemType = "button" then
              some (if elemType = "input" then "type" else "tap")
            else none
          if ¬ clickable ∨ elemType = "container" then
            let (cs, st3) := buildDedupList children st2
            (some (.mk nodeId elemType (some currentText) action cs), st3)
          else
            (some (.mk nodeId elemType (some currentText) action []), st2)

/-- The child loops of `_build_dedup_node`: truthy child results are
appended in order. -/
def buildDedupList (ns : XNodeList) (st : DState) : List DNode × DState :=
  match ns with
  | .nil => ([], st)
  | .cons h t =>
    let (o, st1) := buildDedup h st
    let (l, st2) := buildDedupList t st1
    (o.toList ++ l, st2)
end

/-- The ghost build trace of one full traversal from the document root with
fresh state (`parse_dedup_tree` lines 17-22). -/
def dedupEmits (root : XNode) : List Emit :=
  (buildDedup root ⟨[], 0, []⟩).2.emits

/-- "Clickable or input-typed", the element class named by claim C6. -/
def emitActionable (e : Emit) : Bool := e.clickable ∨ e.elemType = "input"

/-! ### Helper lemmas -/

lemma stubFirstLoop_eq_find (nodes : List PRecord) :
    stubFirstLoop nodes =
      (nodes.find? (fun n => n.clickable && decide (n.text ≠ ""))).map stubSelectorOf := by
  induction nodes with
  | nil => rfl
  | cons n rest ih =>
    by_cases hc : n.clickable
    · by_cases ht : n.text ≠ ""
      · simp [stubFirstLoop, List.find?, hc, ht]
      · simp [stubFirstLoop, List.find?, hc, ht, ih]
    · simp [stubFirstLoop, List.find?, hc, ih]

lemma stubSecondLoop_eq_find (nodes : List PRecord) :
    stubSecondLoop nodes =
      (nodes.find? (fun n => n.clickable && decide (n.resourceId ≠ "" ∨ n.contentDesc ≠ ""))).map
        stubSelectorOf := by
  induction nodes with
  | nil => rfl
  | cons n rest ih =>
    by_cases hc : n.clickable
    · by_cases hi : n.resourceId ≠ "" ∨ n.contentDesc ≠ ""
      · simp [stubSecondLoop, List.find?, hc, hi]
      · simp [stubSecondLoop, List.find?, hc, hi, ih]
    · simp [stubSecondLoop, List.find?, hc, ih]

lemma choose_node_stub_eq_spec (nodes : List PRecord) :
    choose_node_stub nodes = specStubRule nodes := by
  unfold choose_node_stub specStubRule
  rw [stubFirstLoop_eq_find, stubSecondLoop_eq_find]
  cases nodes.find? (fun n => n.clickable && decide (n.text ≠ "")) <;> simp

/-! ### Claim C1 -/

/-- C1: for every node list and goal, if the LLM path inside `choose_node`
raises any error (missing snapshot, client failure, bad index), then
`choose_node` does not propagate the exception but returns exactly
`choose_node_stub` applied to the same node list. -/
theorem chooseNode_absorbs_llm_failure (env : Env) (nodes : List PRecord)
    (userGoal : Option String) (e : PlanErr)
    (h : choose_node_with_llm env = .error e) :
    choose_node env nodes userGoal = choose_node_stub nodes := by
  unfold choose_node
  split
  · rename_i s heq
    rw [h] at heq
    exact absurd heq (by simp)
  · show (if _ = true then choose_node_stub nodes else choose_node_stub nodes) = _
    split <;> rfl

/-- Witness for C1 at a concrete input: with a credential set, a goal given,
and no snapshot on disk, the LLM path fails with `missingSnapshot` and
`choose_node` returns the stub result. -/
theorem chooseNode_absorbs_llm_failure_witness :
    choose_node ⟨some "k", none, none, .ok ⟨"click", 0, "r", 1⟩⟩
        [⟨"id1", "Go", "", true, ""⟩] (some "login") =
      choose_node_stub [⟨"id1", "Go", "", true, ""⟩] :=
  chooseNode_absorbs_llm_failure ⟨some "k", none, none, .ok ⟨"click", 0, "r", 1⟩⟩
    [⟨"id1", "Go", "", true, ""⟩] (some "login") .missingSnapshot rfl

/-! ### Claim C2 -/

/-- C2: with neither credential environment variable set, `choose_node`
returns exactly `choose_node_stub` for every node list and goal; the stub is
the selector of the first clickable node with non-empty text, else of the
first clickable node with non-empty resource-id or content-desc, else none;
in particular the empty list and an all-unclickable list both yield none. -/
theorem chooseNode_no_credentials (env : Env) (nodes : List PRecord)
    (userGoal : Option String)
    (hk : env.googleAiApiKey = none) (hv : env.vertexAiProjectId = none) :
    choose_node env nodes userGoal = choose_node_stub nodes ∧
    choose_node_stub nodes = specStubRule nodes ∧
    choose_node_stub ([] : List PRecord) = none ∧
    ((∀ n ∈ nodes, n.clickable = false) → choose_node_stub nodes = none) := by
  refine ⟨?_, choose_node_stub_eq_spec nodes, rfl, ?_⟩
  · unfold choose_node
    simp [hk, hv]
  · intro hall
    rw [choose_node_stub_eq_spec]
    unfold specStubRule
    have h1 : nodes.find? (fun n => n.clickable && decide (n.text ≠ "")) = none := by
      rw [List.find?_eq_none]
      intro n hn
      simp [hall n hn]
    have h2 : nodes.find?
        (fun n => n.clickable && decide (n.resourceId ≠ "" ∨ n.contentDesc ≠ "")) = none := by
      rw [List.find?_eq_none]
      intro n hn
      simp [hall n hn]
    rw [h1, h2]
    rfl

/-- Witness for C2 at a concrete input: no credentials, a mixed node list
(an unclickable node, a clickable text-less node, a clickable "Click Me"
node) and a goal. -/
theorem chooseNode_no_credentials_witness :
    choose_node ⟨none, none, none, .ok ⟨"click", 0, "r", 1⟩⟩
        [⟨"id0", "Label", "", false, ""⟩, ⟨"id1", "", "d1", true, ""⟩,
         ⟨"id2", "Click Me", "", true, ""⟩] (some "any goal") =
      choose_node_stub
        [⟨"id0", "Label", "", false, ""⟩, ⟨"id1", "", "d1", true, ""⟩,
         ⟨"id2", "Click Me", "", true, ""⟩] ∧
    choose_node_stub
        [⟨"id0", "Label", "", false, ""⟩, ⟨"id1", "", "d1", true, ""⟩,
         ⟨"id2", "Click Me", "", true, ""⟩] = some ⟨"id2", "Click Me", ""⟩ :=
  ⟨(chooseNode_no_credentials ⟨none, none, none, .ok ⟨"click", 0, "r", 1⟩⟩
      [⟨"id0", "Label", "", false, ""⟩, ⟨"id1", "", "d1", true, ""⟩,
       ⟨"id2", "Click Me", "", true, ""⟩] (some "any goal") rfl rfl).1,
   by decide⟩

/-! ### Claim C3 -/

/-- Concrete two-node document used by the C3 counterexample. -/
def tapDocC3 : List Attrs :=
  [[("resource-id", "id9"), ("text", "Hello"), ("bounds", "[0,0][10,10]")],
   [("resource-id", "id10"), ("bounds", "[50,50][90,90]")]]

/-- Counterexample to C3: `tap_node` invoked with a selector whose
resource-id, text and content-desc are all empty does not fail with
InvalidInput — it matches the very first node of the fresh document and
resolves to a tap at its bounds center. -/
theorem tapResolve_empty_selector_counterexample :
    tapResolve ⟨"", "", ""⟩ tapDocC3 = .ok (5, 5) ∧
    tapResolve ⟨"", "", ""⟩ tapDocC3 ≠ .error .invalidInput := by
  refine ⟨rfl, ?_⟩
  intro h
  rw [show tapResolve ⟨"", "", ""⟩ tapDocC3 = .ok (5, 5) from rfl] at h
  exact Except.noConfusion h

/-- C3 amended: `tap_node` performs no emptiness check on the selector.
With an all-empty selector every node vacuously matches, so the resolution
picks the first node of the document and taps its bounds center (failing
with `missingBounds` only when that node has a falsy `bounds` attribute and
with `invalidInput` only when its bounds text is malformed); it never fails
with NotFound or an empty-selector InvalidInput. -/
theorem tapResolve_empty_selector (n : Attrs) (rest : List Attrs) :
    (∀ a : Attrs, tapMatches ⟨"", "", ""⟩ a = true) ∧
    tapResolve ⟨"", "", ""⟩ (n :: rest) =
      (match n.lookup "bounds" with
       | none => .error .missingBounds
       | some b =>
         if b = "" then .error .missingBounds
         else
           match parse_bounds b with
           | none => .error .invalidInput
           | some bd => .ok (boundsCenter bd)) := by
  constructor
  · intro a
    rfl
  · have hfind : (n :: rest).find? (tapMatches ⟨"", "", ""⟩) = some n := by
      simp [List.find?]
      rfl
    unfold tapResolve
    rw [hfind]
    rfl

/-! ### Claim C4 -/

/-- Counterexample to C4: with a snapshot present and the model returning an
out-of-range element index, `analyze_screen_for_goal` does not fail with
InvalidIndex — it returns the decision without an attached element. -/
theorem analyze_out_of_range_counterexample :
    analyze_screen_for_goal ⟨none, none, some [], .ok ⟨"click", 5, "r", 1⟩⟩ =
      .ok ⟨⟨"click", 5, "r", 1⟩, none⟩ ∧
    analyze_screen_for_goal ⟨none, none, some [], .ok ⟨"click", 5, "r", 1⟩⟩ ≠
      .error .invalidIndex := by
  refine ⟨rfl, ?_⟩
  intro h
  rw [show analyze_screen_for_goal ⟨none, none, some [], .ok ⟨"click", 5, "r", 1⟩⟩ =
      .ok ⟨⟨"click", 5, "r", 1⟩, none⟩ from rfl] at h
  exact Except.noConfusion h

/-- C4 amended: when the model's returned element index is out of range of
the freshly parsed element list, `choose_node_with_llm` fails with
InvalidIndex (which the `analyze`/`execute` commands would propagate), but
`analyze_screen_for_goal` instead returns the decision with no element
attached. -/
theorem llm_invalid_index (env : Env) (doc : List Attrs) (r : Decision)
    (hs : env.snapshot = some doc) (hr : env.llmOutcome = .ok r)
    (hi : ¬ (0 ≤ r.elementIndex ∧ r.elementIndex < (parse_for_llm doc).length)) :
    choose_node_with_llm env = .error .invalidIndex ∧
    analyze_screen_for_goal env = .ok ⟨r, none⟩ := by
  constructor
  · unfold choose_node_with_llm
    rw [hs, hr]
    simp only [dif_neg hi]
    rfl
  · unfold analyze_screen_for_goal
    rw [hs, hr]
    simp only [dif_neg hi]
    rfl

/-- Witness for C4's amended theorem at a concrete input: empty parsed list,
model index 5. -/
theorem llm_invalid_index_witness :
    choose_node_with_llm ⟨none, none, some [], .ok ⟨"click", 5, "r", 1⟩⟩ =
      .error .invalidIndex ∧
    analyze_screen_for_goal ⟨none, none, some [], .ok ⟨"click", 5, "r", 1⟩⟩ =
      .ok ⟨⟨"click", 5, "r", 1⟩, none⟩ :=
  llm_invalid_index ⟨none, none, some [], .ok ⟨"click", 5, "r", 1⟩⟩ [] ⟨"click", 5, "r", 1⟩
    rfl rfl (by decide)

/-! ### Claim C5 -/

/-- C5: `parse` returns records for exactly those nodes having at least one
non-empty identifying field (regardless of enabled state), in original
document order, with clickable true exactly when the attribute equals
`"true"` (false for any other value or absence). -/
theorem parse_exact_filter (doc : List Attrs) :
    parse doc = (doc.filter hasIdentity).map pRecordOf ∧
    ∀ a : Attrs, ((pRecordOf a).clickable = true ↔ a.lookup "clickable" = some "true") := by
  constructor
  · induction doc with
    | nil => rfl
    | cons a rest ih =>
      have hcond : ((pRecordOf a).resourceId ≠ "" ∨ (pRecordOf a).text ≠ "" ∨
          (pRecordOf a).contentDesc ≠ "") ↔ hasIdentity a = true := by
        simp [hasIdentity, pRecordOf]
      by_cases hb : hasIdentity a = true
      · simp [parse, List.filter_cons, hcond.mpr hb, hb, ih]
      · have hb' : hasIdentity a = false := Bool.eq_false_iff.mpr hb
        have hc' : ¬ ((pRecordOf a).resourceId ≠ "" ∨ (pRecordOf a).text ≠ "" ∨
            (pRecordOf a).contentDesc ≠ "") := fun hh => hb (hcond.mp hh)
        simp only [parse, if_neg hc']
        simp [List.filter_cons, hb', ih]
  · intro a
    simp only [pRecordOf, aget]
    cases h : a.lookup "clickable" with
    | none => simp [h]
    | some v =>
      simp [h]

/-! ### Claim C8 -/

lemma minStep_tiny (st : MinState) (a : Attrs) (h : minTiny a = true) :
    (minStep st a).elements = st.elements := by
  unfold minStep
  repeat' split
  all_goals simp_all
  repeat' split
  all_goals rfl

/-- C8: `parse_minimal_for_llm` never emits an element for a node whose
bounds attribute is present, well-formed and under 20 pixels on either axis:
the collection step leaves the element list unchanged on such a node, and a
document of only such nodes contributes no element at all. -/
theorem parse_minimal_size_filter (st : MinState) (a : Attrs) (h : minTiny a = true) :
    (minStep st a).elements = st.elements ∧
    ∀ (st2 : MinState) (doc : List Attrs), (∀ b ∈ doc, minTiny b = true) →
      (doc.foldl minStep st2).elements = st2.elements := by
  refine ⟨minStep_tiny st a h, ?_⟩
  intro st2 doc
  induction doc generalizing st2 with
  | nil => intro _; rfl
  | cons b rest ih =>
    intro hall
    have hb := hall b (by simp)
    have hrest : ∀ c ∈ rest, minTiny c = true := fun c hc => hall c (by simp [hc])
    calc ((b :: rest).foldl minStep st2).elements
        = (rest.foldl minStep (minStep st2 b)).elements := rfl
      _ = (minStep st2 b).elements := ih (minStep st2 b) hrest
      _ = st2.elements := minStep_tiny st2 b hb

/-- Witness for C8 at a concrete input: a 5×5 enabled button both alone as a
step and as a whole document. -/
theorem parse_minimal_size_filter_witness :
    (minStep ⟨[], [], 0⟩
        [("enabled", "true"), ("text", "x"), ("class", "android.widget.Button"),
         ("bounds", "[0,0][5,5]")]).elements = [] ∧
    (([[("enabled", "true"), ("text", "x"), ("class", "android.widget.Button"),
        ("bounds", "[0,0][5,5]")]] : List Attrs).foldl minStep ⟨[], [], 0⟩).elements = [] := by
  have h := parse_minimal_size_filter ⟨[], [], 0⟩
    [("enabled", "true"), ("text", "x"), ("class", "android.widget.Button"),
     ("bounds", "[0,0][5,5]")] (by decide)
  exact ⟨h.1, h.2 ⟨[], [], 0⟩
    [[("enabled", "true"), ("text", "x"), ("class", "android.widget.Button"),
      ("bounds", "[0,0][5,5]")]] (by decide)⟩

/-! ### Claim C10 -/

/-- Concrete pair of nodes for C10: a tiny enabled button labelled `OK` and
a full-size enabled button with the identical identity 4-tuple. -/
def tinyOkNode : Attrs :=
  [("enabled", "true"), ("text", "OK"), ("class", "android.widget.Button"),
   ("clickable", "true"), ("bounds", "[0,0][10,10]")]

def bigOkNode : Attrs :=
  [("enabled", "true"), ("text", "OK"), ("class", "android.widget.Button"),
   ("clickable", "true"), ("bounds", "[0,0][200,100]")]

/-- C10: the duplicate key is recorded before the 20-pixel size filter runs,
so a tiny element registers the key and is discarded, and the later
full-size element with the identical key is suppressed: the output contains
no element with that key at all.  Removing the tiny node, the full-size
element is emitted. -/
theorem parse_minimal_dedup_before_size :
    parse_minimal_for_llm [tinyOkNode, bigOkNode] = ⟨[], 0, []⟩ ∧
    parse_minimal_for_llm [bigOkNode] =
      ⟨[⟨0, "B", "OK", true, some "click", none⟩], 1, [("action", [0])]⟩ := by
  constructor
  · rfl
  · rfl

/-! ### Claim C9: canonical bounds strings and their round trip -/

/-- Decimal digit character for one digit value (any value 9 or above maps
to `9`; only applied to values below 10). -/
def digitChar : Nat → Char
  | 0 => '0' | 1 => '1' | 2 => '2' | 3 => '3' | 4 => '4'
  | 5 => '5' | 6 => '6' | 7 => '7' | 8 => '8' | _ => '9'

/-- Fuelled decimal rendering of a natural number (most significant digit
first); the fuel `n + 1` always suffices. -/
def natToDigitsAux : Nat → Nat → List Char → List Char
  | 0, _, acc => acc
  | fuel + 1, n, acc =>
    if n < 10 then digitChar n :: acc
    else natToDigitsAux fuel (n / 10) (digitChar (n % 10) :: acc)

def natToDigits (n : Nat) : List Char := natToDigitsAux (n + 1) n []

/-- The canonical well-formed bounds text `[x1,y1][x2,y2]` for the given
coordinates. -/
def renderBounds (x1 y1 x2 y2 : Nat) : String :=
  ⟨'[' :: (natToDigits x1 ++ (',' :: (natToDigits y1 ++ (']' :: '[' ::
    (natToDigits x2 ++ (',' :: (natToDigits y2 ++ [']'])))))))⟩

/-- Head of the remainder is not a digit (so the greedy `\d+` stops there). -/
def headNotDigit : List Char → Bool
  | [] => true
  | c :: _ => !(isDigitCh c)

lemma natToDigitsAux_acc (fuel : Nat) : ∀ n acc,
    natToDigitsAux fuel n acc = natToDigitsAux fuel n [] ++ acc := by
  induction fuel with
  | zero => intro n acc; rfl
  | succ fuel ih =>
    intro n acc
    by_cases h : n < 10
    · simp [natToDigitsAux, h]
    · simp only [natToDigitsAux, if_neg h]
      rw [ih (n / 10) (digitChar (n % 10) :: acc), ih (n / 10) [digitChar (n % 10)]]
      simp

lemma digitChar_toNat (k : Nat) (hk : k < 10) : (digitChar k).toNat = 48 + k := by
  interval_cases k <;> rfl

lemma digitChar_isDigit (k : Nat) (hk : k < 10) : isDigitCh (digitChar k) = true := by
  interval_cases k <;> rfl

lemma natToDigitsAux_digits (fuel : Nat) : ∀ n, n < fuel →
    ∀ c ∈ natToDigitsAux fuel n [], isDigitCh c = true := by
  induction fuel with
  | zero => intro n hn; omega
  | succ fuel ih =>
    intro n hn c hc
    by_cases h : n < 10
    · simp only [natToDigitsAux, if_pos h, List.mem_singleton] at hc
      rw [hc]
      exact digitChar_isDigit n h
    · simp only [natToDigitsAux, if_neg h] at hc
      rw [natToDigitsAux_acc] at hc
      rcases List.mem_append.mp hc with hm | hm
      · exact ih (n / 10) (by omega) c hm
      · rw [List.mem_singleton.mp hm]
        exact digitChar_isDigit (n % 10) (Nat.mod_lt n (by omega))

lemma natToDigitsAux_ne_nil (fuel : Nat) : ∀ n, n < fuel →
    natToDigitsAux fuel n [] ≠ [] := by
  induction fuel with
  | zero => intro n hn; omega
  | succ fuel ih =>
    intro n hn
    by_cases h : n < 10
    · simp [natToDigitsAux, h]
    · simp only [natToDigitsAux, if_neg h]
      rw [natToDigitsAux_acc]
      simp

/-- The digit-accumulation step of `munchNat`. -/
def digitStep (a : Nat) (c : Char) : Nat := a * 10 + (c.toNat - 48)

lemma natToDigitsAux_foldl (fuel : Nat) : ∀ n a, n < fuel →
    (natToDigitsAux fuel n []).foldl digitStep a =
      a * 10 ^ (natToDigitsAux fuel n []).length + n := by
  induction fuel with
  | zero => intro n a hn; omega
  | succ fuel ih =>
    intro n a hn
    by_cases h : n < 10
    · simp [natToDigitsAux, h, digitStep, digitChar_toNat n h]
      try omega
    · simp only [natToDigitsAux, if_neg h]
      rw [natToDigitsAux_acc]
      rw [List.foldl_append, List.length_append]
      rw [ih (n / 10) a (by omega)]
      simp only [List.foldl_cons, List.foldl_nil, List.length_singleton, digitStep]
      rw [digitChar_toNat (n % 10) (Nat.mod_lt n (by omega))]
      rw [pow_succ]
      have : (48 + n % 10) - 48 = n % 10 := by omega
      rw [this]
      ring_nf
      omega

lemma takeWhile_digits_append (l r : List Char) (hl : ∀ c ∈ l, isDigitCh c = true)
    (hr : headNotDigit r = true) :
    (l ++ r).takeWhile isDigitCh = l ∧ (l ++ r).dropWhile isDigitCh = r := by
  induction l with
  | nil =>
    cases r with
    | nil => exact ⟨rfl, rfl⟩
    | cons c t =>
      simp only [headNotDigit, Bool.not_eq_true'] at hr
      simp [List.takeWhile_cons, List.dropWhile_cons, hr]
  | cons c t ih =>
    have hc : isDigitCh c = true := hl c (by simp)
    have ht : ∀ d ∈ t, isDigitCh d = true := fun d hd => hl d (by simp [hd])
    obtain ⟨h1, h2⟩ := ih ht
    simp [List.takeWhile_cons, List.dropWhile_cons, hc, h1, h2]

lemma munchNat_render (n : Nat) (rest : List Char) (hr : headNotDigit rest = true) :
    munchNat (natToDigits n ++ rest) = some (n, rest) := by
  have hdig := natToDigitsAux_digits (n + 1) n (by omega)
  obtain ⟨h1, h2⟩ := takeWhile_digits_append (natToDigits n) rest hdig hr
  unfold munchNat
  rw [show (natToDigits n ++ rest).takeWhile isDigitCh = natToDigits n from h1,
      show (natToDigits n ++ rest).dropWhile isDigitCh = rest from h2]
  have hne := natToDigitsAux_ne_nil (n + 1) n (by omega)
  rw [if_neg (by simpa [List.isEmpty_iff] using hne)]
  have := natToDigitsAux_foldl (n + 1) n 0 (by omega)
  simp only [natToDigits] at *
  rw [show (natToDigitsAux (n + 1) n []).foldl (fun a c => a * 10 + (c.toNat - 48)) 0 =
        (natToDigitsAux (n + 1) n []).foldl digitStep 0 from rfl, this]
  simp

lemma parseBoundsChars_render (x1 y1 x2 y2 : Nat) :
    parseBoundsChars ('[' :: (natToDigits x1 ++ (',' :: (natToDigits y1 ++ (']' :: '[' ::
      (natToDigits x2 ++ (',' :: (natToDigits y2 ++ [']'])))))))) = some ⟨x1, y1, x2, y2⟩ := by
  have m1 := munchNat_render x1 (',' :: (natToDigits y1 ++ (']' :: '[' ::
    (natToDigits x2 ++ (',' :: (natToDigits y2 ++ [']'])))))) rfl
  have m2 := munchNat_render y1 (']' :: '[' :: (natToDigits x2 ++
    (',' :: (natToDigits y2 ++ [']'])))) rfl
  have m3 := munchNat_render x2 (',' :: (natToDigits y2 ++ [']'])) rfl
  have m4 := munchNat_render y2 [']'] rfl
  simp [parseBoundsChars, expectCh, m1, m2, m3, m4]

/-- C9: for every well-formed bounds string `[x1,y1][x2,y2]` with `x1 ≤ x2`
and `y1 ≤ y2`, parsing followed by the center computation yields exactly
`(⌊(x1+x2)/2⌋, ⌊(y1+y2)/2⌋)`; in particular the text `[100,200][300,400]`
parses and yields center `(200, 300)`. -/
theorem bounds_parse_center (x1 y1 x2 y2 : Nat) (hx : x1 ≤ x2) (hy : y1 ≤ y2) :
    parse_bounds (renderBounds x1 y1 x2 y2) = some ⟨x1, y1, x2, y2⟩ ∧
    boundsCenter ⟨x1, y1, x2, y2⟩ = ((x1 + x2) / 2, (y1 + y2) / 2) ∧
    (parse_bounds "[100,200][300,400]").map boundsCenter = some (200, 300) := by
  refine ⟨?_, rfl, rfl⟩
  exact parseBoundsChars_render x1 y1 x2 y2

/-- Witness for C9 at the concrete coordinates 100, 200, 300, 400. -/
theorem bounds_parse_center_witness :
    parse_bounds (renderBounds 100 200 300 400) = some ⟨100, 200, 300, 400⟩ ∧
    boundsCenter ⟨100, 200, 300, 400⟩ = (200, 300) ∧
    (parse_bounds "[100,200][300,400]").map boundsCenter = some (200, 300) :=
  bounds_parse_center 100 200 300 400 (by decide) (by decide)

/-! ### Claim C7 -/

/-- Consecutive chunks of length `L`, written from the spec's words ("chunks
elements into consecutive period-length groups") for comparison with the
detector's output. -/
def specChunks (L : Nat) (l : List LElem) : List (List LElem) :=
  (List.range ((l.length + L - 1) / L)).map (fun j => (l.drop (j * L)).take L)

lemma chunkItems_elements (L : Nat) (l : List LElem) :
    (chunkItems L l).map (fun g => g.elements) = specChunks L l := by
  simp [chunkItems, specChunks, List.map_map]

lemma periodic_drop_take (sig : List String) (p : Nat) (hp : 1 ≤ p)
    (hper : ∀ i, i + p < sig.length → sig.get? (i + p) = sig.get? i) :
    ∀ m, (m + 1) * p ≤ sig.length → (sig.drop (m * p)).take p = sig.take p := by
  intro m
  induction m with
  | zero => intro _; simp
  | succ m ih =>
    intro hm
    have hm' : (m + 1) * p ≤ sig.length := by
      calc (m + 1) * p ≤ (m + 1 + 1) * p := by
            exact Nat.mul_le_mul_right p (by omega)
        _ ≤ sig.length := hm
    rw [← ih hm']
    apply List.ext_get?
    intro i
    by_cases hi : i < p
    · rw [List.get?_take hi, List.get?_take hi, List.get?_drop, List.get?_drop]
      have harg : m * p + i + p = (m + 1) * p + i := by ring
      have hb : m * p + i + p < sig.length := by
        have : (m + 1) * p + i < (m + 1 + 1) * p := by
          have : (m + 1 + 1) * p = (m + 1) * p + p := by ring
          omega
        omega
      have := hper (m * p + i) hb
      rw [harg] at this
      rw [this]
    · have e1 : (List.take p (List.drop ((m + 1) * p) sig)).length ≤ i := by
        rw [List.length_take]; omega
      have e2 : (List.take p (List.drop (m * p) sig)).length ≤ i := by
        rw [List.length_take]; omega
      rw [List.get?_eq_none.mpr e1, List.get?_eq_none.mpr e2]

lemma find_patterns_of_periodic (es : List LElem) (p : Nat)
    (hp2 : 2 ≤ p) (hub : p < min 8 ((typeSignature es).length / 2))
    (hdvd : p ∣ (typeSignature es).length)
    (hper : ∀ i, i + p < (typeSignature es).length →
      (typeSignature es).get? (i + p) = (typeSignature es).get? i) :
    (typeSignature es).take p ∈ find_repeating_patterns es := by
  have hp0 : 0 < p := by omega
  have hpn : p ≤ (typeSignature es).length := by
    have h8 := Nat.min_le_right 8 ((typeSignature es).length / 2)
    have hd2 := Nat.div_le_self (typeSignature es).length 2
    omega
  unfold find_repeating_patterns
  rw [List.mem_filterMap]
  refine ⟨p, ?_, ?_⟩
  · rw [List.mem_range'_1]
    omega
  · have hchunks : chunksRepeat ((typeSignature es).take p) p ((typeSignature es).drop p) = true := by
      unfold chunksRepeat
      rw [List.all_eq_true]
      intro j hj
      rw [List.mem_range, List.length_drop] at hj
      have h1 : (j + 1) * p ≤ (typeSignature es).length - p + p - 1 :=
        (Nat.le_div_iff_mul_le hp0).mp (by omega)
      have h2 : (j + 1) * p < (typeSignature es).length := by omega
      obtain ⟨k, hk⟩ := hdvd
      have h3 : p * (j + 1) < p * k := by
        rw [mul_comm p (j + 1)]
        rw [hk] at h2
        exact h2
      have hjk : j + 2 ≤ k := by
        have := Nat.lt_of_mul_lt_mul_left h3
        omega
      have hbound : (j + 1 + 1) * p ≤ (typeSignature es).length := by
        rw [hk, mul_comm p k]
        exact Nat.mul_le_mul_right p hjk
      have hchunk := periodic_drop_take (typeSignature es) p (by omega) hper (j + 1) hbound
      rw [List.drop_drop]
      have harg : p + j * p = (j + 1) * p := by ring
      rw [harg, hchunk]
      exact beq_self_eq_true _
    simp only [hchunks, if_true]

/-- Six list-flagged elements whose type signature is
`[tap_area, text, input]` repeated with exact period 3, spread far apart
vertically. -/
def period3Example : List LElem :=
  [⟨"element", "A", some "tap", some "[0,0][10,10]", true⟩,
   ⟨"text", "Hello", none, some "[0,990][10,1010]", true⟩,
   ⟨"input", "x", none, some "[0,1990][10,2010]", true⟩,
   ⟨"element", "B", some "tap", some "[0,2990][10,3010]", true⟩,
   ⟨"text", "World", none, some "[0,3990][10,4010]", true⟩,
   ⟨"input", "y", none, some "[0,4990][10,5010]", true⟩]

/-- Six list-flagged elements with signature `[tap_area, text]` repeated
(period 2), close together vertically. -/
def period2Example : List LElem :=
  [⟨"element", "", some "tap", some "[0,0][10,10]", true⟩,
   ⟨"text", "Hello", none, some "[0,10][10,30]", true⟩,
   ⟨"element", "", some "tap", some "[0,40][10,60]", true⟩,
   ⟨"text", "World", none, some "[0,60][10,80]", true⟩,
   ⟨"element", "", some "tap", some "[0,90][10,110]", true⟩,
   ⟨"text", "Again", none, some "[0,110][10,130]", true⟩]

/-- Counterexample to C7: the type signature of `period3Example` repeats
with exact period 3 = p (within the claimed 2..7 range) across the whole
6-element sequence, yet the detector does not find the cycle — the pattern
search only tries lengths in `range(2, min(8, 6 // 2)) = [2]`, finds
nothing, and the proximity fallback produces six singleton items instead of
two period-length groups. -/
theorem list_detector_counterexample :
    typeSignature period3Example =
      ["tap_area", "text", "input", "tap_area", "text", "input"] ∧
    (identify_list_items period3Example).map (fun g => g.elements) =
      period3Example.map (fun e => [e]) ∧
    (identify_list_items period3Example).map (fun g => g.elements) ≠
      [period3Example.take 3, period3Example.drop 3] := by
  refine ⟨rfl, rfl, by decide⟩

/-- C7 amended: the pattern search tries period lengths `2` up to
`min(8, n // 2) - 1` and detects a cycle of length `p` only when `p` also
divides the sequence length; under those conditions the cycle is found,
and the detector chunks the (sorted) elements into consecutive groups whose
length is that of the longest detected pattern (a multiple of the exact
period); in particular 6 elements with signature
`[tap_area, text, tap_area, text, tap_area, text]` yield 3 two-element list
items, not one 6-element run. -/
theorem list_detector_period (es : List LElem) (p : Nat)
    (hp2 : 2 ≤ p) (hub : p < min 8 ((typeSignature es).length / 2))
    (hdvd : p ∣ (typeSignature es).length)
    (hper : ∀ i, i + p < (typeSignature es).length →
      (typeSignature es).get? (i + p) = (typeSignature es).get? i) :
    (typeSignature es).take p ∈ find_repeating_patterns es ∧
    find_repeating_patterns es ≠ [] ∧
    (∀ h t isHorizontal, find_repeating_patterns es = h :: t →
      (group_by_patterns es (h :: t) isHorizontal).map (fun g => g.elements) =
        specChunks (longestPattern h t).length es) ∧
    (identify_list_items period2Example).map (fun g => g.elements) =
      [period2Example.take 2, (period2Example.drop 2).take 2, period2Example.drop 4] ∧
    (identify_list_items period2Example).length = 3 := by
  refine ⟨find_patterns_of_periodic es p hp2 hub hdvd hper, ?_, ?_, rfl, rfl⟩
  · intro hnil
    have := find_patterns_of_periodic es p hp2 hub hdvd hper
    rw [hnil] at this
    exact absurd this (List.not_mem_nil _)
  · intro h t isHorizontal heq
    unfold group_by_patterns
    exact chunkItems_elements (longestPattern h t).length es

/-! ### Claim C6 -/

/-- Pair relation of the amended duplicate-suppression invariant: two
emissions with the same non-empty lowercased visible text cannot both be
inert (neither clickable nor input-typed). -/
def emitRel (a b : Emit) : Prop :=
  a.textLower ≠ "" → a.textLower = b.textLower → emitActionable a ∨ emitActionable b

instance : DecidablePred (fun p : Emit × Emit => emitRel p.1 p.2) := by
  intro p
  unfold emitRel
  infer_instance

/-- Keys currently recorded in `seen_texts`. -/
def seenKeys (st : DState) : List String := st.seen.map Prod.fst

/-- Traversal invariant: every inert emission's key is recorded in
`seen_texts`, and no two same-key emissions are both inert. -/
def InvD (st : DState) : Prop :=
  (∀ e ∈ st.emits, e.textLower ≠ "" → ¬ emitActionable e → e.textLower ∈ seenKeys st) ∧
  List.Pairwise emitRel st.emits

lemma pyLower_ne_empty (s : String) (h : s ≠ "") : pyLower s ≠ "" := by
  intro hc
  apply h
  have hd : s.data.map Char.toLower = [] := congrArg String.data hc
  have hnil : s.data = [] := List.map_eq_nil_iff.mp hd
  cases s with
  | mk data =>
    simp only at hnil
    rw [hnil]

lemma lookup_none_not_mem {α β : Type} [DecidableEq α] (k : α) (l : List (α × β))
    (h : l.lookup k = none) : k ∉ l.map Prod.fst := by
  induction l with
  | nil => simp
  | cons p t ih =>
    obtain ⟨k1, v1⟩ := p
    simp only [List.lookup] at h
    cases hb : (k == k1) with
    | true =>
      rw [hb] at h
      exact absurd h (by simp)
    | false =>
      rw [hb] at h
      simp only [List.map_cons, List.mem_cons]
      rintro (hc | hc)
      · exact absurd hc (by simpa using hb)
      · exact ih h hc

lemma InvD_emitState (st : DState) (vt : String) (clickable : Bool)
    (elemType bounds : String) (hInv : InvD st)
    (hkeep : (if vt ≠ "" then
        match st.seen.lookup (pyLower vt) with
        | some prev =>
          ((clickable ∧ ¬ prev.clickable) ∨ (elemType = "input" ∧ prev.type ≠ "input") : Bool)
        | none => true
      else (clickable ∨ elemType = "input" : Bool)) = true) :
    InvD (dedupEmitState st vt clickable elemType bounds) ∧
    ∀ k, k ∈ seenKeys st → k ∈ seenKeys (dedupEmitState st vt clickable elemType bounds) := by
  obtain ⟨h1, h2⟩ := hInv
  by_cases hvt : vt = ""
  · subst hvt
    have hst : dedupEmitState st "" clickable elemType bounds =
        { st with nextId := st.nextId + 1,
                  emits := st.emits ++ [⟨pyLower "", clickable, elemType⟩] } := by
      unfold dedupEmitState
      simp
    rw [hst]
    refine ⟨⟨?_, ?_⟩, ?_⟩
    · intro e he hne hact
      simp only [List.mem_append, List.mem_singleton] at he
      rcases he with he | he
      · exact h1 e he hne hact
      · rw [he] at hne
        exact absurd rfl hne
    · rw [List.pairwise_append]
      refine ⟨h2, List.pairwise_singleton _ _, ?_⟩
      intro a _ b hb
      rw [List.mem_singleton] at hb
      intro hka hkab
      rw [hb] at hkab
      exact absurd hkab hka
    · intro k hk
      exact hk
  · have hkey : pyLower vt ≠ "" := pyLower_ne_empty vt hvt
    rw [if_pos hvt] at hkeep
    have hst : dedupEmitState st vt clickable elemType bounds =
        { seen := (pyLower vt, ⟨st.nextId, clickable, elemType, bounds⟩) :: st.seen,
          nextId := st.nextId + 1,
          emits := st.emits ++ [⟨pyLower vt, clickable, elemType⟩] } := by
      unfold dedupEmitState
      rw [if_pos hvt]
    rw [hst]
    have hkmono : ∀ k, k ∈ seenKeys st →
        k ∈ seenKeys { seen := (pyLower vt, (⟨st.nextId, clickable, elemType, bounds⟩ : SeenInfo)) :: st.seen,
                       nextId := st.nextId + 1,
                       emits := st.emits ++ [⟨pyLower vt, clickable, elemType⟩] } := by
      intro k hk
      simp only [seenKeys, List.map_cons, List.mem_cons]
      exact Or.inr hk
    cases hlk : st.seen.lookup (pyLower vt) with
    | some prev =>
      rw [hlk] at hkeep
      have hact : emitActionable ⟨pyLower vt, clickable, elemType⟩ = true := by
        simp only [emitActionable]
        simp only [decide_eq_true_eq] at hkeep ⊢
        rcases hkeep with ⟨hc, _⟩ | ⟨hi, _⟩
        · exact Or.inl hc
        · exact Or.inr hi
      refine ⟨⟨?_, ?_⟩, hkmono⟩
      · intro e he hne hacte
        simp only [List.mem_append, List.mem_singleton] at he
        rcases he with he | he
        · simp only [seenKeys, List.map_cons, List.mem_cons]
          exact Or.inr (h1 e he hne hacte)
        · rw [he] at hacte
          exact absurd hact hacte
      · rw [List.pairwise_append]
        refine ⟨h2, List.pairwise_singleton _ _, ?_⟩
        intro a ha b hb
        rw [List.mem_singleton] at hb
        intro _ _
        rw [hb]
        exact Or.inr hact
    | none =>
      have hfresh : pyLower vt ∉ st.seen.map Prod.fst := lookup_none_not_mem _ _ hlk
      refine ⟨⟨?_, ?_⟩, hkmono⟩
      · intro e he hne hacte
        simp only [List.mem_append, List.mem_singleton] at he
        rcases he with he | he
        · simp only [seenKeys, List.map_cons, List.mem_cons]
          exact Or.inr (h1 e he hne hacte)
        · rw [he]
          simp [seenKeys]
      · rw [List.pairwise_append]
        refine ⟨h2, List.pairwise_singleton _ _, ?_⟩
        intro a ha b hb
        rw [List.mem_singleton] at hb
        intro hka hkab
        by_cases hacta : emitActionable a
        · exact Or.inl hacta
        · exfalso
          have := h1 a ha hka hacta
          rw [hb] at hkab
          rw [hkab] at this
          exact hfresh this

mutual
theorem buildDedup_inv (n : XNode) (st : DState) (hInv : InvD st) :
    InvD (buildDedup n st).2 ∧ (∀ k, k ∈ seenKeys st → k ∈ seenKeys (buildDedup n st).2) := by
  cases n with
  | mk attrs children =>
    simp only [buildDedup]
    split
    case isTrue => exact ⟨hInv, fun k hk => hk⟩
    case isFalse =>
      set cl := (aget attrs "clickable" "false" == "true") with hcl
      set ty := dedupElementType (aget attrs "class" "") cl with hty
      set vt := (if pyStrip (aget attrs "text" "") ≠ "" then pyStrip (aget attrs "text" "")
        else pyStrip (aget attrs "content-desc" "")) with hvt
      set bd := aget attrs "bounds" "" with hbd
      by_cases hcont : (ty = "container" ∨ ty = "layout" ∨ ty = "list") ∧ vt = "" ∧ ¬ cl = true
      · rw [if_pos hcont]
        have hl := buildDedupList_inv children st hInv
        revert hl
        rcases buildDedupList children st with ⟨cs, st1⟩
        intro hl
        match cs with
        | [] => exact hl
        | [c] => exact hl
        | c1 :: c2 :: crest => exact hl
      · rw [if_neg hcont]
        by_cases hk : (if vt ≠ "" then
            (match List.lookup (pyLower vt) st.seen with
             | some prev =>
               ((cl ∧ ¬ prev.clickable) ∨ (ty = "input" ∧ prev.type ≠ "input") : Bool)
             | none => true)
          else ((cl ∨ ty = "input") : Bool)) = true
        · rw [if_neg (not_not_intro hk)]
          by_cases hch : ¬ cl = true ∨ ty = "container"
          · rw [if_pos hch]
            have hstep := InvD_emitState st vt cl ty bd hInv hk
            have hrest := buildDedupList_inv children (dedupEmitState st vt cl ty bd) hstep.1
            exact ⟨hrest.1, fun k hkk => hrest.2 k (hstep.2 k hkk)⟩
          · rw [if_neg hch]
            exact InvD_emitState st vt cl ty bd hInv hk
        · rw [if_pos hk]
          exact ⟨hInv, fun k hkk => hkk⟩

theorem buildDedupList_inv (ns : XNodeList) (st : DState) (hInv : InvD st) :
    InvD (buildDedupList ns st).2 ∧
    (∀ k, k ∈ seenKeys st → k ∈ seenKeys (buildDedupList ns st).2) := by
  cases ns with
  | nil => exact ⟨hInv, fun k hk => hk⟩
  | cons h t =>
    simp only [buildDedupList]
    have h1 := buildDedup_inv h st hInv
    have h2 := buildDedupList_inv t (buildDedup h st).2 h1.1
    exact ⟨h2.1, fun k hk => h2.2 k (h1.2 k hk)⟩
end

/-- Concrete document for the C6 counterexample: an enabled unlabelled
layout containing a clickable text "Play", an input "Play", and another
clickable text "Play". -/
def dedupExample : XNode :=
  .mk [("enabled", "true"), ("class", "android.widget.LinearLayout")]
    (.cons (.mk [("enabled", "true"), ("class", "android.widget.TextView"),
                 ("clickable", "true"), ("text", "Play")] .nil)
      (.cons (.mk [("enabled", "true"), ("class", "android.widget.EditText"),
                   ("text", "Play")] .nil)
        (.cons (.mk [("enabled", "true"), ("class", "android.widget.TextView"),
                     ("clickable", "true"), ("text", "Play")] .nil) .nil)))

/-- Counterexample to C6: one traversal emits three elements with the
identical visible text `play` — a clickable button, an input, and another
clickable button.  The second and third pair up as two same-text emissions
that are BOTH clickable-or-input (and the first and third are two emissions
with identical clickable/input status), contradicting the claimed "except
when one of the two is clickable or input-typed and the other is not". -/
theorem dedup_replacement_counterexample :
    dedupEmits dedupExample =
      [⟨"play", true, "button"⟩, ⟨"play", false, "input"⟩, ⟨"play", true, "button"⟩] ∧
    ¬ List.Pairwise
        (fun a b : Emit => a.textLower ≠ "" → a.textLower = b.textLower →
          (emitActionable a ∧ ¬ emitActionable b) ∨ (emitActionable b ∧ ¬ emitActionable a))
        (dedupEmits dedupExample) := by
  constructor
  · rfl
  · intro hp
    rw [show dedupEmits dedupExample =
        [⟨"play", true, "button"⟩, ⟨"play", false, "input"⟩, ⟨"play", true, "button"⟩]
      from rfl] at hp
    rcases List.pairwise_cons.mp hp with ⟨hrel, _⟩
    have := hrel ⟨"play", true, "button"⟩ (by simp)
    rcases this (by simp) rfl with ⟨_, hb⟩ | ⟨_, hb⟩ <;> simp [emitActionable] at hb

/-- C6 amended: across one full traversal, among the elements the
Deduplicating Tree Parser builds, no two with the same non-empty
case-insensitive visible text are both inert (neither clickable nor
input-typed) — equivalently, of any two same-text emissions at least one is
clickable or input-typed; two same-text emissions that are each clickable
or input-typed can both be emitted (the replacement rule only updates the
seen-map, it does not remove the earlier node). -/
theorem dedup_duplicate_suppression (root : XNode) :
    List.Pairwise emitRel (dedupEmits root) := by
  have h := buildDedup_inv root ⟨[], 0, []⟩ ⟨by simp, List.Pairwise.nil⟩
  exact h.1.2

/-- Eight list-flagged elements with signature `[tap_area, text]` repeated
four times, used to discharge the hypotheses of the C7 theorem concretely. -/
def period2Example8 : List LElem :=
  [⟨"element", "", some "tap", some "[0,0][10,10]", true⟩,
   ⟨"text", "Hello", none, some "[0,10][10,30]", true⟩,
   ⟨"element", "", some "tap", some "[0,40][10,60]", true⟩,
   ⟨"text", "World", none, some "[0,60][10,80]", true⟩,
   ⟨"element", "", some "tap", some "[0,90][10,110]", true⟩,
   ⟨"text", "Again", none, some "[0,110][10,130]", true⟩,
   ⟨"element", "", some "tap", some "[0,140][10,160]", true⟩,
   ⟨"text", "More", none, some "[0,160][10,180]", true⟩]

/-- Witness for C7's amended theorem at the concrete period-2, 8-element
input (2 divides 8 and 2 < min(8, 8 // 2)). -/
theorem list_detector_period_witness :
    (typeSignature period2Example8).take 2 ∈ find_repeating_patterns period2Example8 ∧
    find_repeating_patterns period2Example8 ≠ [] := by
  have hper : ∀ i, i + 2 < (typeSignature period2Example8).length →
      (typeSignature period2Example8).get? (i + 2) = (typeSignature period2Example8).get? i := by
    intro i hi
    have hl : (typeSignature period2Example8).length = 8 := rfl
    rw [hl] at hi
    have h6 : i < 6 := by omega
    interval_cases i <;> rfl
  have h := list_detector_period period2Example8 2 (by decide) (by decide) (by decide) hper
  exact ⟨h.1, h.2.1⟩
